import Mathlib

/-!
Shallow embedding of the endpoint response-normalization and method-dispatch
engine of the `kit` repository (src/packages/kit/src/runtime/server/endpoint.js),
together with theorems settling the frozen claims about it.

The helpers imported by endpoint.js from `./utils.js`, `../hash.js` and
`../../utils/http.js` (check_method_names, is_pojo, serialize_error, hash,
to_headers) are not part of the provided sources; each of those definitions is
modelled from the specification and is marked as such in its doc comment.
Everything else is translated directly from endpoint.js.

Machine-level JS details made explicit in the model:
* `Headers` objects are mutable; the embedding threads an explicit heap of
  header maps, with references as indices, so that aliasing and the
  copy-on-ingest behavior of the engine are observable.
* JS falsiness of the empty string is modelled wherever the source tests a
  header value with `!x`.
* `for (const method in array)` iterates the array INDICES as strings
  ("0", "1", ...), not the elements; the embedding of `allowed` reproduces
  exactly that.
-/

namespace Kit

/-! ### Character-list string helpers

All string inspection is done on `List Char` with structural recursion so that
every definition reduces by `decide` / `rfl` on concrete inputs. -/

/-- Does the character list begin with the given pattern? -/
def seq_starts : List Char → List Char → Bool
  | _, [] => true
  | [], _ :: _ => false
  | c :: cs, p :: ps => c == p && seq_starts cs ps

/-- Does the character list end with the given pattern? -/
def seq_ends (l pat : List Char) : Bool :=
  seq_starts l.reverse pat.reverse

/-- Does the character list contain the given pattern as a contiguous run?
Mirrors a JS substring regex test such as `/(no-store|immutable)/.test(s)`. -/
def seq_has : List Char → List Char → Bool
  | [], pat => pat.isEmpty
  | c :: cs, pat => seq_starts (c :: cs) pat || seq_has cs pat

/-- Lower-case every character (ASCII suffices for MIME types). -/
def lower_str (s : String) : String :=
  String.mk (s.data.map Char.toLower)

/-- The characters of `str.split(sep)[0]` for a one-character separator:
everything before the first occurrence of the separator. -/
def take_before (sep : Char) : List Char → List Char
  | [] => []
  | c :: cs => if c == sep then [] else c :: take_before sep cs

/-! ### JSON values and `JSON.stringify` -/

/-- A JSON-like structured value, the payload of a plain-object handler body.
Numbers are modelled as integers (no claim involves fractional numbers). -/
inductive JsonValue where
  | null : JsonValue
  | bool (b : Bool) : JsonValue
  | num (n : Int) : JsonValue
  | str (s : String) : JsonValue
  | arr (items : List JsonValue) : JsonValue
  | obj (fields : List (String × JsonValue)) : JsonValue
deriving Repr, Inhabited

/-- JSON string escaping for one character. -/
def escape_char (c : Char) : String :=
  if c == '"' then "\\\""
  else if c == '\\' then "\\\\"
  else if c == '\n' then "\\n"
  else if c == '\r' then "\\r"
  else if c == '\t' then "\\t"
  else String.singleton c

/-- A JSON string literal: the escaped content between double quotes. -/
def quote_json (s : String) : String :=
  "\"" ++ String.join (s.data.map escape_char) ++ "\""

mutual
/-- `JSON.stringify` on the structured-value model. -/
def stringify : JsonValue → String
  | .null => "null"
  | .bool true => "true"
  | .bool false => "false"
  | .num n => toString n
  | .str s => quote_json s
  | .arr items => "[" ++ stringify_items items ++ "]"
  | .obj fields => "\x7b" ++ stringify_fields fields ++ "\x7d"

/-- Comma-separated encoding of an array's items. -/
def stringify_items : List JsonValue → String
  | [] => ""
  | [v] => stringify v
  | v :: rest => stringify v ++ "," ++ stringify_items rest

/-- Comma-separated encoding of an object's key/value pairs. -/
def stringify_fields : List (String × JsonValue) → String
  | [] => ""
  | [(k, v)] => quote_json k ++ ":" ++ stringify v
  | (k, v) :: rest => quote_json k ++ ":" ++ stringify v ++ "," ++ stringify_fields rest
end

/-! ### Header maps and the heap of mutable `Headers` objects

A JS `Headers` object is a mutable, case-insensitive map. The embedding keeps
header maps as association lists whose keys are stored lower-cased, and models
object identity with an explicit heap: a list of maps, addressed by index. -/

/-- A case-insensitive header map; keys are stored lower-cased. -/
abbrev HeaderMap := List (String × String)

/-- `headers.set(name, value)`: drop any entry with the (case-insensitive)
name and append the new one. -/
def header_set (m : HeaderMap) (name value : String) : HeaderMap :=
  (m.filter (fun p => p.1 != lower_str name)) ++ [(lower_str name, value)]

/-- `headers.get(name)`: `none` models JS `null` (header absent). -/
def header_get (m : HeaderMap) (name : String) : Option String :=
  (m.find? (fun p => p.1 == lower_str name)).map (fun p => p.2)

/-- `headers.has(name)`. -/
def header_has (m : HeaderMap) (name : String) : Bool :=
  (header_get m name).isSome

/-- The heap of live `Headers` objects; a reference is an index into it. -/
abbrev Heap := List HeaderMap

/-- Allocate a fresh `Headers` object holding `m`; returns the new heap and
the reference to the fresh object. -/
def alloc (heap : Heap) (m : HeaderMap) : Heap × Nat :=
  (heap ++ [m], heap.length)

/-- Dereference; a dangling reference reads as an empty map. -/
def read_ref : Heap → Nat → HeaderMap
  | [], _ => []
  | m :: _, 0 => m
  | _ :: rest, n + 1 => read_ref rest n

/-- Overwrite the object at a reference (no-op when dangling). -/
def write_ref : Heap → Nat → HeaderMap → Heap
  | [], _, _ => []
  | _ :: rest, 0, m => m :: rest
  | x :: rest, n + 1, m => x :: write_ref rest n m

/-! ### The data model of a dispatch -/

/-- The request body values a handler can return, as a tagged union
(`ResponseBody = JSONValue | Uint8Array | ReadableStream | Error` in
types/index.d.ts). `stream` carries an opaque identity: the engine forwards
streams without consuming them. -/
inductive BodyValue where
  | text (s : String) : BodyValue
  | binary (bytes : List Nat) : BodyValue
  | stream (id : Nat) : BodyValue
  | jsonLike (v : JsonValue) : BodyValue
  | errorValue (message : String) (stack : String) : BodyValue
deriving Repr, Inhabited

/-- How a handler supplies headers on its result: a reference to a live
`Headers` object, a plain name-to-string record, or nothing. -/
inductive HeaderSource where
  | inst (r : Nat) : HeaderSource
  | record (entries : List (String × String)) : HeaderSource
  | absent : HeaderSource
deriving Repr, Inhabited

/-- The object shape a well-behaved handler returns:
`status` and `body` are optional (JS destructuring defaults apply only to
`undefined`), and `fallthrough` models the truthiness of the legacy marker. -/
structure ResponseShape where
  status : Option Nat := none
  body : Option BodyValue := none
  headers : HeaderSource := .absent
  fallthrough : Bool := false
deriving Repr, Inhabited

/-- The `typeof` kind of a non-object JS value a handler might return. -/
inductive PrimKind where
  | str | num | boolean | undef | func | sym | bigint
deriving Repr, DecidableEq, Inhabited

/-- The string produced by the JS `typeof` operator on each non-object kind. -/
def typeof_name : PrimKind → String
  | .str => "string"
  | .num => "number"
  | .boolean => "boolean"
  | .undef => "undefined"
  | .func => "function"
  | .sym => "symbol"
  | .bigint => "bigint"

/-- What a handler invocation evaluates to: an object-shaped result, or a
value of some non-object `typeof` kind. -/
inductive HandlerReturn where
  | obj (r : ResponseShape) : HandlerReturn
  | prim (k : PrimKind) : HandlerReturn
deriving Repr, Inhabited

/-- The request event as this engine observes it: method token, URL pathname,
and the truthiness of the internal `x-sveltekit-load` request header. -/
structure Event where
  method : String
  pathname : String
  x_sveltekit_load : Bool
deriving Repr, DecidableEq, Inhabited

/-- A request handler. Handlers are pure in the model: the awaited result is a
function of the event. -/
abbrev Handler := Event → HandlerReturn

/-- A handler module: a mapping from property name to handler.
JS property lookup is case-sensitive; at most one handler per name. -/
abbrev HandlerModule := List (String × Handler)

/-- `mod[name]` property lookup. -/
def module_get (mod : HandlerModule) (name : String) : Option Handler :=
  (mod.find? (fun p => p.1 == name)).map (fun p => p.2)

/-- The engine's configuration: whether error serialization includes the
stack (`options.get_stack`). -/
structure SSROptions where
  get_stack : Bool
deriving Repr, DecidableEq, Inhabited

/-- The normalized response handed to the transport. `new Response` copies the
headers it is given, so `headers` is a plain value; `body` is `none` when the
response has no body (`undefined` in the source). -/
structure Response where
  status : Nat
  headers : HeaderMap
  body : Option BodyValue
deriving Repr, Inhabited

/-! ### Helpers imported by endpoint.js whose sources are not provided -/

/-- Modelled from the spec: `to_headers` from src/utils/http.js is not in
src/. Per section 4.4 step 3 it normalizes a plain record of
name-to-string entries into a header map; entries are applied in order with
`set` semantics (string-array values are outside the scope of the claims). -/
def to_headers (entries : List (String × String)) : HeaderMap :=
  entries.foldl (fun m p => header_set m p.1 p.2) []

/-- Modelled from the spec: `is_pojo` from src/runtime/server/utils.js is not
in src/. Per section 4.4 step 6 it recognizes exactly the JSON-like
structured values and the error values among the body shapes. -/
def is_pojo : BodyValue → Bool
  | .jsonLike _ => true
  | .errorValue _ _ => true
  | _ => false

/-- Modelled from the spec: `serialize_error` from src/runtime/server/utils.js
is not in src/. Per section 4.5 the ErrorSerializer produces a structured
object with a `message` field, plus a trace field when `include_stack` is
set, which is then JSON-encoded. -/
def serialize_error (message stack : String) (include_stack : Bool) : String :=
  stringify (.obj ([("message", .str message)]
    ++ (if include_stack then [("stack", .str stack)] else [])))

/-- One step of a 32-bit multiplicative content hash. -/
def hash_step (h c : Nat) : Nat := (h * 33 + c) % 4294967296

/-- Modelled from the spec: `hash` from src/runtime/hash.js is not in src/.
Per section 4.6 the CacheValidatorGenerator is a deterministic content hash
over a string or byte sequence; it is only ever applied to those two shapes. -/
def hash : BodyValue → String
  | .text s => toString ((s.data.map Char.toNat).foldl hash_step 5381)
  | .binary bytes => toString (bytes.foldl hash_step 5381)
  | _ => ""

/-- Modelled from the spec: `check_method_names` from
src/runtime/server/utils.js is not in src/. The spec assigns no observable
behavior to module-key validation, so it is a no-op. -/
def check_method_names (_mod : HandlerModule) : Unit := ()

/-! ### endpoint.js, translated -/

/-- `error(body)`: `new Response(body, \x7b status: 500 \x7d)`. -/
def error (body : String) : Response :=
  { status := 500, headers := [], body := some (.text body) }

/-- The `text_types` set of endpoint.js. -/
def text_types : List String :=
  ["application/xml", "application/json", "application/x-www-form-urlencoded",
   "multipart/form-data"]

/-- The `bodyless_status_codes` set of endpoint.js. -/
def bodyless_status_codes : List Nat := [101, 204, 205, 304]

/-- `is_text(content_type)` of endpoint.js. `none` models JS `null`; the
empty string is JS-falsy, so `!content_type` also accepts it. -/
def is_text (content_type : Option String) : Bool :=
  match content_type with
  | none => true
  | some ct =>
    if ct == "" then true
    else
      let type := lower_str (String.mk (take_before ';' ct.data))
      seq_starts type.data "text/".data || seq_ends type.data "+xml".data
        || text_types.contains type

/-- `body instanceof Uint8Array || body instanceof ReadableStream ||
is_string(body)` (with `is_string` covering primitive and wrapped strings). -/
def is_bin_stream_or_string : BodyValue → Bool
  | .text _ => true
  | .binary _ => true
  | .stream _ => true
  | _ => false

/-- `typeof normalized_body === 'string' || normalized_body instanceof
Uint8Array`, the guard of the etag step. -/
def is_text_or_binary : BodyValue → Bool
  | .text _ => true
  | .binary _ => true
  | _ => false

/-- `(!type || type.startsWith('application/json'))`; the empty string is
JS-falsy. -/
def json_content_type : Option String → Bool
  | none => true
  | some t => t == "" || seq_starts t.data "application/json".data

/-- `/(no-store|immutable)/.test(cc)`: substring containment of either word. -/
def cache_control_match (cc : String) : Bool :=
  seq_has cc.data "no-store".data || seq_has cc.data "immutable".data

/-- Handler resolution (endpoint.js lines 50-55): `mod[method]`, falling back
to `mod.GET` when the method is HEAD. -/
def resolve_handler (mod : HandlerModule) (method : String) : Option Handler :=
  match module_get mod method with
  | some h => some h
  | none => if method == "HEAD" then module_get mod "GET" else none

/-- The `allowed` list of the 405 branch (endpoint.js lines 58-64). The
source iterates `for (const method in ['GET', 'POST', 'PUT', 'PATCH',
'DELETE'])`; JS `for..in` over an array enumerates its index strings
"0".."4", so each loop iteration tests `mod["0"]`..`mod["4"]`, and then
"HEAD" is pushed when `mod.GET` or `mod.HEAD` exists. -/
def allowed_methods (mod : HandlerModule) : List String :=
  (["0", "1", "2", "3", "4"].filter (fun k => (module_get mod k).isSome))
    ++ (if (module_get mod "GET").isSome || (module_get mod "HEAD").isSome
        then ["HEAD"] else [])

/-- Header ingestion (endpoint.js lines 98-101): a live `Headers` instance is
copied (`new Headers(response.headers)`), a plain record goes through
`to_headers`, as does an absent field (`to_headers(undefined)` yields an
empty `Headers`). Returns the heap with the fresh object and its reference. -/
def normalize_headers (heap : Heap) (src : HeaderSource) : Heap × Nat :=
  match src with
  | .inst r => alloc heap (read_ref heap r)
  | .record entries => alloc heap (to_headers entries)
  | .absent => alloc heap (to_headers [])

/-- `Invalid response from route <pathname>`. -/
def preface (event : Event) : String :=
  "Invalid response from route " ++ event.pathname

/-- The message of the fatal legacy-fallthrough rejection. -/
def fallthrough_message : String :=
  "fallthrough is no longer supported. Use matchers instead: https://kit.svelte.dev/docs/routing#advanced-routing-matching"

/-- The body of the 500 produced when a non-textual content-type carries a
body that is not a string, Uint8Array or ReadableStream. -/
def body_type_message (event : Event) : String :=
  preface event ++ ": body must be an instance of string, Uint8Array or ReadableStream if content-type is not a supported textual content-type"

/-- The body-encoding decision (endpoint.js lines 115-123): when the body is
a pojo (JSON-like or error value) and the content-type is absent or starts
with `application/json`, set the content-type and JSON-encode (error values
through the error serializer); otherwise both body and headers pass through
unchanged. The `is_pojo` guard of the source is inlined as the tag test. -/
def encode_body (body : BodyValue) (type : Option String) (m : HeaderMap)
    (options : SSROptions) : BodyValue × HeaderMap :=
  match body with
  | .errorValue msg stack =>
    if json_content_type type then
      (.text (serialize_error msg stack options.get_stack),
       header_set m "content-type" "application/json; charset=utf-8")
    else (.errorValue msg stack, m)
  | .jsonLike v =>
    if json_content_type type then
      (.text (stringify v),
       header_set m "content-type" "application/json; charset=utf-8")
    else (.jsonLike v, m)
  | b => (b, m)

/-- The etag step (endpoint.js lines 125-133): when the encoded body is a
string or Uint8Array, no etag header is present, and the cache-control
header is JS-falsy or matches neither `no-store` nor `immutable`, set
`etag` to the quoted content hash. `(header_get m "cache-control").getD ""`
together with the `cc == ""` test models `!cache_control` (null or empty). -/
def etag_step (normalized_body : BodyValue) (m : HeaderMap) : HeaderMap :=
  if is_text_or_binary normalized_body && !header_has m "etag" then
    let cc := (header_get m "cache-control").getD ""
    if cc == "" || !cache_control_match cc then
      header_set m "etag" ("\"" ++ hash normalized_body ++ "\"")
    else m
  else m

/-- Normalization of one handler invocation result (endpoint.js lines
82-142): shape check, fatal fallthrough rejection, destructuring with
defaults, header ingestion, body-type validation, body encoding, etag
injection, and bodyless suppression in the final `Response`. A thrown JS
error is `Except.error`. -/
def run_result (heap : Heap) (event : Event) (options : SSROptions)
    (ret : HandlerReturn) : Except String (Heap × Response) :=
  match ret with
  | .prim k =>
    .ok (heap, error (preface event ++ ": expected an object, got " ++ typeof_name k))
  | .obj response =>
    if response.fallthrough then
      .error fallthrough_message
    else
      let status := response.status.getD 200
      let body := response.body.getD (.jsonLike (.obj []))
      let hp := normalize_headers heap response.headers
      let type := header_get (read_ref hp.1 hp.2) "content-type"
      if !is_text type && !is_bin_stream_or_string body then
        .ok (hp.1, error (body_type_message event))
      else
        let enc := encode_body body type (read_ref hp.1 hp.2) options
        let final_headers := etag_step enc.1 enc.2
        .ok (write_ref hp.1 hp.2 final_headers,
          { status := status
            headers := final_headers
            body := if event.method != "HEAD"
                       && !bodyless_status_codes.contains status
                    then some enc.1 else none })

/-- `render_endpoint(event, mod, options)` (endpoint.js lines 45-142):
resolve the handler (HEAD falls back to GET); with no handler, answer 204
to an internal secondary data-fetch and 405 with the `allow` header
otherwise; with a handler, invoke it and normalize its result. -/
def render_endpoint (heap : Heap) (event : Event) (mod : HandlerModule)
    (options : SSROptions) : Except String (Heap × Response) :=
  let _ := check_method_names mod
  match resolve_handler mod event.method with
  | some handler => run_result heap event options (handler event)
  | none =>
    if event.x_sveltekit_load then
      .ok (heap, { status := 204, headers := [], body := none })
    else
      .ok (heap,
        { status := 405
          headers := [("allow", String.intercalate ", " (allowed_methods mod))]
          body := some (.text (event.method ++ " method not allowed")) })

/-- The header-map contents the engine ingests from a result's header source:
the current contents of a referenced `Headers` object, or the record folded
through `to_headers`. -/
def source_map (heap : Heap) : HeaderSource → HeaderMap
  | .inst r => read_ref heap r
  | .record entries => to_headers entries
  | .absent => to_headers []

/-- The successful tail of normalization (body encoding, etag injection,
bodyless suppression), as a pure function of the ingested header-map
contents; `run_result` reduces to it once the shape, fallthrough and
body-type checks have passed. -/
def finish_normalize (heap : Heap) (event : Event) (options : SSROptions)
    (res : ResponseShape) : Heap × Response :=
  let m0 := source_map heap res.headers
  let status := res.status.getD 200
  let body := res.body.getD (.jsonLike (.obj []))
  let enc := encode_body body (header_get m0 "content-type") m0 options
  let final_headers := etag_step enc.1 enc.2
  (write_ref (heap ++ [m0]) heap.length final_headers,
   { status := status
     headers := final_headers
     body := if event.method != "HEAD" && !bodyless_status_codes.contains status
             then some enc.1 else none })

/-! ### Heap lemmas and the pure view of normalization -/

theorem read_ref_append (heap : Heap) (m : HeaderMap) (r : Nat)
    (h : r < heap.length) : read_ref (heap ++ [m]) r = read_ref heap r := by
  induction heap generalizing r with
  | nil => exact absurd h (Nat.not_lt_zero r)
  | cons x rest ih =>
    cases r with
    | zero => rfl
    | succ n => exact ih n (Nat.lt_of_succ_lt_succ h)

theorem read_ref_last (heap : Heap) (m : HeaderMap) :
    read_ref (heap ++ [m]) heap.length = m := by
  induction heap with
  | nil => rfl
  | cons x rest ih => exact ih

theorem read_ref_write_ne (heap : Heap) (i r : Nat) (m : HeaderMap)
    (h : r ≠ i) : read_ref (write_ref heap i m) r = read_ref heap r := by
  induction heap generalizing i r with
  | nil => rfl
  | cons x rest ih =>
    cases i with
    | zero =>
      cases r with
      | zero => exact absurd rfl h
      | succ n => rfl
    | succ j =>
      cases r with
      | zero => rfl
      | succ n => exact ih j n (fun hh => h (congrArg Nat.succ hh))

theorem normalize_headers_eq (heap : Heap) (src : HeaderSource) :
    normalize_headers heap src = (heap ++ [source_map heap src], heap.length) := by
  cases src <;> rfl

theorem run_result_obj_eq (heap : Heap) (event : Event) (options : SSROptions)
    (res : ResponseShape) (hf : res.fallthrough = false) :
    run_result heap event options (.obj res) =
      (if !is_text (header_get (source_map heap res.headers) "content-type")
          && !is_bin_stream_or_string (res.body.getD (.jsonLike (.obj []))) then
        .ok (heap ++ [source_map heap res.headers], error (body_type_message event))
      else
        .ok (finish_normalize heap event options res)) := by
  simp only [run_result, hf, normalize_headers_eq, read_ref_last, finish_normalize,
    Bool.false_eq_true, if_false]

theorem run_result_preserves (heap : Heap) (event : Event) (options : SSROptions)
    (ret : HandlerReturn) (heap' : Heap) (resp : Response)
    (h : run_result heap event options ret = .ok (heap', resp))
    (r : Nat) (hr : r < heap.length) : read_ref heap' r = read_ref heap r := by
  cases ret with
  | prim k =>
    simp only [run_result, Except.ok.injEq, Prod.mk.injEq] at h
    rw [← h.1]
  | obj res =>
    by_cases hf : res.fallthrough
    · simp only [run_result, hf, if_true] at h
      exact Except.noConfusion h
    · rw [run_result_obj_eq heap event options res (by simpa using hf)] at h
      by_cases hcond : (!is_text (header_get (source_map heap res.headers) "content-type")
          && !is_bin_stream_or_string (res.body.getD (.jsonLike (.obj [])))) = true
      · rw [if_pos hcond] at h
        injection h with h'
        injection h' with h1 _
        rw [← h1]
        exact read_ref_append heap _ r hr
      · rw [if_neg hcond] at h
        injection h with h'
        have h1 : (finish_normalize heap event options res).1 = heap' := by
          rw [h']
        rw [← h1]
        show read_ref (write_ref (heap ++ [source_map heap res.headers]) heap.length _) r
          = read_ref heap r
        rw [read_ref_write_ne _ _ _ _ (Nat.ne_of_lt hr)]
        exact read_ref_append heap _ r hr

theorem render_preserves (heap : Heap) (event : Event) (mod : HandlerModule)
    (options : SSROptions) (heap' : Heap) (resp : Response)
    (h : render_endpoint heap event mod options = .ok (heap', resp))
    (r : Nat) (hr : r < heap.length) : read_ref heap' r = read_ref heap r := by
  unfold render_endpoint at h
  cases hres : resolve_handler mod event.method with
  | some handler =>
    rw [hres] at h
    exact run_result_preserves heap event options (handler event) heap' resp h r hr
  | none =>
    rw [hres] at h
    cases hx : event.x_sveltekit_load with
    | true =>
      simp only [hx, if_true, Except.ok.injEq, Prod.mk.injEq] at h
      rw [← h.1]
    | false =>
      simp only [hx, Bool.false_eq_true, if_false, Except.ok.injEq, Prod.mk.injEq] at h
      rw [← h.1]

/-! ### The claims -/

/-- C1: the claim states that when no handler matches (and no GET fallback
for HEAD exists) the 405 response carries an `allow` header listing exactly
the methods of the module out of GET, POST, PUT, PATCH, DELETE, with HEAD
appended when applicable. This theorem evaluates the code at the failing
input of the claim: a module defining only `POST`, a GET request without
the internal marker. The code answers 405 with `allow` equal to the EMPTY
string, because `for..in` over the method array iterates its index strings
"0".."4" and so never observes the module's real methods. -/
theorem c1_allow_header_at_failing_input :
    render_endpoint [] ⟨"GET", "/x", false⟩ [("POST", fun _ => .obj {})] ⟨false⟩ =
      .ok ([], { status := 405, headers := [("allow", "")],
                 body := some (.text "GET method not allowed") }) := rfl

/-- C4: when the handler body is a JSON-like structured value or an error
value and the resolved content-type is absent (JS-falsy) or starts with
`application/json`, the encoding step sets `content-type` to
`application/json; charset=utf-8` and produces the JSON encoding of the
value (error values pass through the error serializer); every other body,
and every body under a non-JSON content-type, passes through with body and
headers unchanged. -/
theorem c4_json_body_encoding (type : Option String) (m : HeaderMap)
    (options : SSROptions) :
    (∀ v : JsonValue, json_content_type type = true →
       encode_body (.jsonLike v) type m options =
         (.text (stringify v),
          header_set m "content-type" "application/json; charset=utf-8")) ∧
    (∀ message stack : String, json_content_type type = true →
       encode_body (.errorValue message stack) type m options =
         (.text (serialize_error message stack options.get_stack),
          header_set m "content-type" "application/json; charset=utf-8")) ∧
    (∀ body : BodyValue, is_pojo body = false ∨ json_content_type type = false →
       encode_body body type m options = (body, m)) := by
  refine ⟨?_, ?_, ?_⟩
  · intro v hjt; simp [encode_body, hjt]
  · intro msg stk hjt; simp [encode_body, hjt]
  · intro body hcase
    rcases hcase with hp | hjt
    · cases body <;> first | rfl | (simp [is_pojo] at hp)
    · cases body <;> simp [encode_body, hjt]

/-- C4 witness: the spec example, body `(a : 1)` and no content-type, is
encoded as the JSON text with the JSON content-type header set. -/
theorem c4_witness :
    json_content_type none = true ∧
    encode_body (.jsonLike (.obj [("a", .num 1)])) none [] ⟨false⟩ =
      (.text "\x7b\"a\":1\x7d",
       [("content-type", "application/json; charset=utf-8")]) :=
  ⟨rfl, (c4_json_body_encoding none [] ⟨false⟩).1 (.obj [("a", .num 1)]) rfl⟩

/-- C7: a handler completing with a non-object value makes dispatch return a
500 response whose body is exactly
`Invalid response from route <url>: expected an object, got <kind>`;
no further normalization step runs (the heap is untouched and the response
carries no headers). -/
theorem c7_non_object_result (heap : Heap) (event : Event) (mod : HandlerModule)
    (options : SSROptions) (handler : Handler) (k : PrimKind)
    (hh : resolve_handler mod event.method = some handler)
    (hr : handler event = .prim k) :
    render_endpoint heap event mod options =
      .ok (heap, error ("Invalid response from route " ++ event.pathname
        ++ ": expected an object, got " ++ typeof_name k)) := by
  unfold render_endpoint
  rw [hh]
  show run_result heap event options (handler event) = _
  rw [hr]
  rfl

/-- C7 witness: a handler returning a string produces the exact diagnostic. -/
theorem c7_witness :
    render_endpoint [] ⟨"GET", "/r", false⟩ [("GET", fun _ => .prim .str)] ⟨false⟩ =
      .ok ([], error "Invalid response from route /r: expected an object, got string") :=
  c7_non_object_result [] ⟨"GET", "/r", false⟩ [("GET", fun _ => .prim .str)]
    ⟨false⟩ _ .str rfl rfl

/-- C8: a handler result carrying the legacy fallthrough marker makes
dispatch throw (an `Except.error`, never an `Except.ok` response, so it is
not locally converted into a 500 or 404 and propagates to the caller) with
the configuration message that fallthrough is unsupported. -/
theorem c8_fallthrough_fatal (heap : Heap) (event : Event) (mod : HandlerModule)
    (options : SSROptions) (handler : Handler) (res : ResponseShape)
    (hh : resolve_handler mod event.method = some handler)
    (hr : handler event = .obj res)
    (hf : res.fallthrough = true) :
    render_endpoint heap event mod options = .error fallthrough_message := by
  unfold render_endpoint
  rw [hh]
  show run_result heap event options (handler event) = _
  rw [hr]
  simp [run_result, hf]

/-- C8 witness: a concrete fallthrough result is rejected with the exact
fatal message. -/
theorem c8_witness :
    render_endpoint [] ⟨"GET", "/r", false⟩
        [("GET", fun _ => .obj { fallthrough := true })] ⟨false⟩ =
      .error fallthrough_message :=
  c8_fallthrough_fatal [] ⟨"GET", "/r", false⟩ _ ⟨false⟩ _ _ rfl rfl rfl

/-- C2: for every dispatched request that reaches (and completes)
normalization, the response body is absent exactly when the request method
is HEAD or the resulting status is one of the bodyless set 101, 204, 205,
304 — regardless of the body the handler produced; in every other
method/status combination the (encoded) body is present. -/
theorem c2_bodyless_suppression (heap : Heap) (event : Event) (mod : HandlerModule)
    (options : SSROptions) (handler : Handler) (res : ResponseShape)
    (heap' : Heap) (resp : Response)
    (hh : resolve_handler mod event.method = some handler)
    (hr : handler event = .obj res)
    (hf : res.fallthrough = false)
    (hv : is_text (header_get (source_map heap res.headers) "content-type") = true
       ∨ is_bin_stream_or_string (res.body.getD (.jsonLike (.obj []))) = true)
    (hout : render_endpoint heap event mod options = .ok (heap', resp)) :
    resp.body = none ↔ (event.method = "HEAD" ∨ resp.status ∈ bodyless_status_codes) := by
  unfold render_endpoint at hout
  rw [hh] at hout
  have hout2 : run_result heap event options (handler event) = .ok (heap', resp) := hout
  rw [hr, run_result_obj_eq heap event options res hf] at hout2
  have hcond : (!is_text (header_get (source_map heap res.headers) "content-type")
      && !is_bin_stream_or_string (res.body.getD (.jsonLike (.obj [])))) = false := by
    rcases hv with h | h <;> simp [h]
  simp only [hcond, Bool.false_eq_true, if_false] at hout2
  injection hout2 with hp
  have hresp : resp = (finish_normalize heap event options res).2 := by rw [hp]
  subst hresp
  by_cases hm : event.method = "HEAD"
  · simp [finish_normalize, hm]
  · have hiff : (bodyless_status_codes.contains (res.status.getD 200) = true)
        ↔ res.status.getD 200 ∈ bodyless_status_codes := by
      simp [bodyless_status_codes]
    cases hc : bodyless_status_codes.contains (res.status.getD 200) with
    | true => simp [finish_normalize, hc, hm, hiff.mp hc]
    | false =>
      have hnm : ¬ res.status.getD 200 ∈ bodyless_status_codes := fun hmm => by
        rw [hiff.mpr hmm] at hc
        exact Bool.noConfusion hc
      simp [finish_normalize, hc, hm, hnm]

/-- C2 witness: a GET handler answering status 204 with a non-empty text
body yields a response with no body; both sides of the equivalence hold at
this input. -/
theorem c2_witness :
    (Response.mk 204 [("cache-control", "no-store")] none).body = none ↔
      ("GET" = "HEAD" ∨ 204 ∈ bodyless_status_codes) :=
  c2_bodyless_suppression [] ⟨"GET", "/", false⟩
    [("GET", fun _ => .obj { status := some 204, body := some (.text "hi"),
                             headers := .record [("cache-control", "no-store")] })]
    ⟨false⟩ _ _ [[("cache-control", "no-store")]] _
    rfl rfl rfl (Or.inr rfl) rfl

/-- C3 counterexample: the claim asserts that for every HEAD request served
through the GET fallback the final response body is absent, even for
non-empty handler bodies. At a module whose GET handler returns a non-empty
JSON-like body under `content-type: application/octet-stream`, the HEAD
request is answered by the body-type diagnostic (status 500) whose body is
present, refuting the claim as stated. -/
theorem c3_counterexample :
    module_get [("GET", fun _ => .obj
        { body := some (.jsonLike (.obj [("a", .num 1)])),
          headers := .record [("content-type", "application/octet-stream")] })] "HEAD" = none ∧
    render_endpoint [] ⟨"HEAD", "/x", false⟩
        [("GET", fun _ => .obj
          { body := some (.jsonLike (.obj [("a", .num 1)])),
            headers := .record [("content-type", "application/octet-stream")] })] ⟨false⟩ =
      .ok ([[("content-type", "application/octet-stream")]],
        { status := 500, headers := [],
          body := some (.text "Invalid response from route /x: body must be an instance of string, Uint8Array or ReadableStream if content-type is not a supported textual content-type") }) ∧
    some (.text "Invalid response from route /x: body must be an instance of string, Uint8Array or ReadableStream if content-type is not a supported textual content-type") ≠ (none : Option BodyValue) :=
  ⟨rfl, rfl, fun h => Option.noConfusion h⟩

/-- C3 (amended): for every HEAD request where the module has no HEAD
handler but has a GET handler, dispatch resolves to the GET handler, and
whenever the handler result passes the shape, fallthrough and body-type
checks (so that normalization completes), the final response body is
absent even when that handler returns a non-empty body. -/
theorem c3_head_get_fallback (heap : Heap) (event : Event) (mod : HandlerModule)
    (options : SSROptions) (g : Handler) (res : ResponseShape)
    (heap' : Heap) (resp : Response)
    (hm : event.method = "HEAD")
    (hhead : module_get mod "HEAD" = none)
    (hget : module_get mod "GET" = some g)
    (hr : g event = .obj res)
    (hf : res.fallthrough = false)
    (hv : is_text (header_get (source_map heap res.headers) "content-type") = true
       ∨ is_bin_stream_or_string (res.body.getD (.jsonLike (.obj []))) = true)
    (hout : render_endpoint heap event mod options = .ok (heap', resp)) :
    resolve_handler mod event.method = some g ∧ resp.body = none := by
  have hres : resolve_handler mod event.method = some g := by
    rw [hm]
    simp [resolve_handler, hhead, hget]
  refine ⟨hres, ?_⟩
  unfold render_endpoint at hout
  rw [hres] at hout
  have hout2 : run_result heap event options (g event) = .ok (heap', resp) := hout
  rw [hr, run_result_obj_eq heap event options res hf] at hout2
  have hcond : (!is_text (header_get (source_map heap res.headers) "content-type")
      && !is_bin_stream_or_string (res.body.getD (.jsonLike (.obj [])))) = false := by
    rcases hv with h | h <;> simp [h]
  simp only [hcond, Bool.false_eq_true, if_false] at hout2
  injection hout2 with hp
  have hresp : resp = (finish_normalize heap event options res).2 := by rw [hp]
  subst hresp
  simp [finish_normalize, hm]

/-- C3 witness: a HEAD request against a module with only a GET handler
returning the non-empty text `hello` resolves to that handler and responds
without a body. -/
theorem c3_witness :
    resolve_handler [("GET", fun _ => .obj
        { body := some (.text "hello"),
          headers := .record [("cache-control", "no-store")] })] "HEAD"
      = some (fun _ => .obj
        { body := some (.text "hello"),
          headers := .record [("cache-control", "no-store")] }) ∧
    (Response.mk 200 [("cache-control", "no-store")] none).body = none :=
  c3_head_get_fallback [] ⟨"HEAD", "/h", false⟩
    [("GET", fun _ => .obj
      { body := some (.text "hello"),
        headers := .record [("cache-control", "no-store")] })]
    ⟨false⟩ _ _ _ _ rfl rfl rfl rfl rfl (Or.inr rfl) rfl

/-- C5: the etag step adds an `etag` header exactly when the encoded body is
a string or binary byte sequence, no `etag` header is present, and the
`cache-control` header is absent or contains neither `no-store` nor
`immutable`; the added value is the content hash of the encoded body
wrapped in double quotes, and in every other situation (in particular under
`cache-control: no-store`) the headers are left unchanged. -/
theorem c5_etag_iff (nb : BodyValue) (m : HeaderMap) :
    (is_text_or_binary nb = true → header_has m "etag" = false →
      (∀ cc, header_get m "cache-control" = some cc →
        seq_has cc.data "no-store".data = false ∧ seq_has cc.data "immutable".data = false) →
      etag_step nb m = header_set m "etag" ("\"" ++ hash nb ++ "\"")) ∧
    (is_text_or_binary nb = false ∨ header_has m "etag" = true ∨
      (∃ cc, header_get m "cache-control" = some cc ∧
        (seq_has cc.data "no-store".data = true ∨ seq_has cc.data "immutable".data = true)) →
      etag_step nb m = m) := by
  constructor
  · intro htb hhas hcc
    unfold etag_step
    rw [htb, hhas]
    cases hget : header_get m "cache-control" with
    | none => simp
    | some s =>
      have hs := hcc s hget
      simp [hget, cache_control_match, hs.1, hs.2]
  · intro hcase
    unfold etag_step
    rcases hcase with h | h | ⟨cc, hget, hmatch⟩
    · rw [h]; simp
    · rw [h]; simp
    · cases htb : is_text_or_binary nb with
      | false => simp
      | true =>
        cases hhas : header_has m "etag" with
        | true => simp
        | false =>
          have hne : cc ≠ "" := by
            intro he
            subst he
            rcases hmatch with hm | hm <;> exact absurd hm (by decide)
          have hcm : cache_control_match cc = true := by
            unfold cache_control_match
            rcases hmatch with hm | hm <;> simp [hm]
          simp [hget, hcm, hne]

/-- C5 witness: a text body with no prior headers receives the quoted
content-hash etag. -/
theorem c5_witness :
    etag_step (.text "x") [] = header_set [] "etag" ("\"" ++ hash (.text "x") ++ "\"") :=
  (c5_etag_iff (.text "x") []).1 rfl rfl (fun _ h => Option.noConfusion h)

/-- C6: when the resolved content-type is non-textual and the handler body
is not a string, binary sequence or stream, dispatch returns the diagnostic
500 naming the expected shapes; when the content-type is textual (absence
classifies as textual), normalization proceeds unconditionally — no
body-shape restriction is enforced. -/
theorem c6_body_type_check (heap : Heap) (event : Event) (mod : HandlerModule)
    (options : SSROptions) (handler : Handler) (res : ResponseShape)
    (hh : resolve_handler mod event.method = some handler)
    (hr : handler event = .obj res)
    (hf : res.fallthrough = false) :
    (is_text (header_get (source_map heap res.headers) "content-type") = false →
       is_bin_stream_or_string (res.body.getD (.jsonLike (.obj []))) = false →
       render_endpoint heap event mod options =
         .ok (heap ++ [source_map heap res.headers], error (body_type_message event))) ∧
    (is_text (header_get (source_map heap res.headers) "content-type") = true →
       render_endpoint heap event mod options =
         .ok (finish_normalize heap event options res)) := by
  have hrr : render_endpoint heap event mod options
      = run_result heap event options (handler event) := by
    unfold render_endpoint
    rw [hh]
  constructor
  · intro h1 h2
    rw [hrr, hr, run_result_obj_eq heap event options res hf]
    simp [h1, h2]
  · intro h1
    rw [hrr, hr, run_result_obj_eq heap event options res hf]
    simp [h1]

/-- C6 witness: the spec example — `content-type: application/octet-stream`
with a JSON-like body — produces the 500 diagnostic naming the expected
shapes. -/
theorem c6_witness :
    render_endpoint [] ⟨"GET", "/x", false⟩
        [("GET", fun _ => .obj
          { body := some (.jsonLike (.obj [])),
            headers := .record [("content-type", "application/octet-stream")] })] ⟨false⟩ =
      .ok ([[("content-type", "application/octet-stream")]],
           error (body_type_message ⟨"GET", "/x", false⟩)) :=
  (c6_body_type_check [] ⟨"GET", "/x", false⟩
    [("GET", fun _ => .obj
      { body := some (.jsonLike (.obj [])),
        headers := .record [("content-type", "application/octet-stream")] })]
    ⟨false⟩ _ _ rfl rfl rfl).1 rfl rfl

/-- C9: normalization is deterministic. For a fixed request, module and
options, running dispatch-and-normalize a second time (on the heap the
first run left behind) produces an identical response — same status, same
headers including the etag value, same body. The hypothesis asks only that
any `Headers` object referenced by the handler result is live in the
initial heap. -/
theorem c9_repeat_normalization (heap : Heap) (event : Event) (mod : HandlerModule)
    (options : SSROptions) (heap1 heap2 : Heap) (resp1 resp2 : Response)
    (hvalid : ∀ handler res r, resolve_handler mod event.method = some handler →
        handler event = .obj res → res.headers = .inst r → r < heap.length)
    (h1 : render_endpoint heap event mod options = .ok (heap1, resp1))
    (h2 : render_endpoint heap1 event mod options = .ok (heap2, resp2)) :
    resp1 = resp2 := by
  cases hres : resolve_handler mod event.method with
  | none =>
    unfold render_endpoint at h1 h2
    rw [hres] at h1 h2
    cases hx : event.x_sveltekit_load with
    | true =>
      simp only [hx, if_true, Except.ok.injEq, Prod.mk.injEq] at h1 h2
      rw [← h1.2, ← h2.2]
    | false =>
      simp only [hx, Bool.false_eq_true, if_false, Except.ok.injEq, Prod.mk.injEq] at h1 h2
      rw [← h1.2, ← h2.2]
  | some handler =>
    have e1 : run_result heap event options (handler event) = .ok (heap1, resp1) := by
      rw [← h1]
      unfold render_endpoint
      rw [hres]
    have e2 : run_result heap1 event options (handler event) = .ok (heap2, resp2) := by
      rw [← h2]
      unfold render_endpoint
      rw [hres]
    cases hret : handler event with
    | prim k =>
      rw [hret] at e1 e2
      simp only [run_result, Except.ok.injEq, Prod.mk.injEq] at e1 e2
      rw [← e1.2, ← e2.2]
    | obj res =>
      rw [hret] at e1 e2
      by_cases hf : res.fallthrough
      · simp only [run_result, hf, if_true] at e1
        exact Except.noConfusion e1
      · have hfb : res.fallthrough = false := by simpa using hf
        rw [run_result_obj_eq heap event options res hfb] at e1
        rw [run_result_obj_eq heap1 event options res hfb] at e2
        have hsm : source_map heap1 res.headers = source_map heap res.headers := by
          cases hhs : res.headers with
          | inst r =>
            have hrlt : r < heap.length := hvalid handler res r hres hret hhs
            show read_ref heap1 r = read_ref heap r
            exact render_preserves heap event mod options heap1 resp1 h1 r hrlt
          | record es => rfl
          | absent => rfl
        rw [hsm] at e2
        by_cases hcond : (!is_text (header_get (source_map heap res.headers) "content-type")
            && !is_bin_stream_or_string (res.body.getD (.jsonLike (.obj [])))) = true
        · rw [if_pos hcond] at e1 e2
          simp only [Except.ok.injEq, Prod.mk.injEq] at e1 e2
          rw [← e1.2, ← e2.2]
        · rw [if_neg hcond] at e1 e2
          injection e1 with p1
          injection e2 with p2
          have r1 : resp1 = (finish_normalize heap event options res).2 := by rw [p1]
          have r2 : resp2 = (finish_normalize heap1 event options res).2 := by rw [p2]
          rw [r1, r2]
          simp only [finish_normalize, hsm]

/-- C9 witness: two consecutive runs over a handler that returns a live
`Headers` reference produce the same response. -/
theorem c9_witness :
    (Response.mk 200 [("cache-control", "no-store")] (some (.text "hi")) : Response) =
      Response.mk 200 [("cache-control", "no-store")] (some (.text "hi")) :=
  c9_repeat_normalization [[("cache-control", "no-store")]] ⟨"GET", "/", false⟩
    [("GET", fun _ => .obj { body := some (.text "hi"), headers := .inst 0 })] ⟨false⟩
    [[("cache-control", "no-store")], [("cache-control", "no-store")]]
    [[("cache-control", "no-store")], [("cache-control", "no-store")],
     [("cache-control", "no-store")]]
    _ _
    (by
      intro handler res r hh hr hinst
      injection hh with hh'
      rw [← hh'] at hr
      injection hr with hr'
      rw [← hr'] at hinst
      injection hinst with hinst'
      rw [← hinst']
      decide)
    rfl rfl

/-- C10: dispatch never mutates a pre-existing `Headers` object — the engine
copies the handler-supplied header map before applying its own header
writes, so after dispatch every header object that existed before (in
particular the handler's) holds exactly the entries it held before. -/
theorem c10_handler_headers_preserved (heap : Heap) (event : Event)
    (mod : HandlerModule) (options : SSROptions) (heap' : Heap) (resp : Response)
    (r : Nat)
    (hout : render_endpoint heap event mod options = .ok (heap', resp))
    (hr : r < heap.length) :
    read_ref heap' r = read_ref heap r :=
  render_preserves heap event mod options heap' resp hout r hr

/-- C10 witness: a handler passing a live `Headers` reference finds its
object unchanged after dispatch (the engine wrote only to its fresh copy). -/
theorem c10_witness :
    read_ref [[("cache-control", "no-store")], [("cache-control", "no-store")]] 0 =
      read_ref [[("cache-control", "no-store")]] 0 :=
  c10_handler_headers_preserved [[("cache-control", "no-store")]] ⟨"GET", "/", false⟩
    [("GET", fun _ => .obj { body := some (.text "hi"), headers := .inst 0 })] ⟨false⟩
    _ _ 0 rfl (by decide)

end Kit
